import Mathlib

/-!
Verification development for the soramimic tutorial pipeline
(`src/code00/main.py`): phrase segmentation over tokenizer output,
a reference word list loader, and a nearest-neighbour matcher that
ranks reference entries by phonetic edit distance.

The two external collaborators are kept abstract, exactly as the spec
declares them out of scope:
* the morphological tokenizer appears as a parameter
  `tokenize : String → List Token` (its record-to-`Token` parsing,
  which IS repository code, is embedded as `mkToken` / `tokenize_line`);
* the edit-distance primitive (`editdistance.eval`) appears as a
  parameter `ed_eval : String → String → Nat`.

Python dictionaries become structures with the same field names; the
stateful loops become structurally recursive functions threading the
same state; Python's `sorted` (a stable sort) is modelled by
`List.mergeSort`, which is likewise stable.
-/

/-- Token record built by `PhraseTokenizer.tokenize` (main.py lines 62-73):
surface form plus up to nine positional grammatical fields. -/
structure Token where
  surface_form : String
  pos : String
  pos_detail_1 : String
  pos_detail_2 : String
  pos_detail_3 : String
  conjugated_type : String
  conjugated_form : String
  basic_form : String
  reading : String
  pronunciation : String
deriving DecidableEq, Repr

/-- Phrase accumulator / output record of `split_text_into_phrases`
(main.py line 90): a dict with keys `surface` and `pronunciation`. -/
structure Phrase where
  surface : String
  pronunciation : String
deriving DecidableEq, Repr

/-- Reference word list entry built by `load_wordlist` (main.py lines 153-157). -/
structure WordEntry where
  id : Nat
  surface : String
  pronunciation : String
deriving DecidableEq, Repr

/-- Output record of `find_closest_words` (main.py lines 178-181). -/
structure ClosestWord where
  closest_word : WordEntry
  original_phrase : Phrase
deriving DecidableEq, Repr

/-- Failure raised when the candidate list is empty and `sorted_words[0]`
(main.py line 179) is taken; the spec names this condition `EmptyCandidateSet`. -/
inductive MatchError where
  | emptyCandidateSet
deriving DecidableEq, Repr

/-- Substring test on character lists: `needle` occurs contiguously in `hay`.
Models Python's `in` operator on strings (main.py lines 103-110). -/
def containsSub (hay needle : List Char) : Bool :=
  match hay with
  | [] => needle.isEmpty
  | _ :: t => needle.isPrefixOf hay || containsSub t needle

/-- String-level wrapper for `containsSub`: Python's `needle in hay`. -/
def strContains (hay needle : String) : Bool :=
  containsSub hay.data needle.data

/-- Python duck typing: `calculate_distance` (main.py lines 23-34) reads the
`pronunciation` key of either a phrase dict or a word list dict. -/
class HasPron (α : Type) where
  pron : α → String

instance : HasPron Phrase := ⟨Phrase.pronunciation⟩

instance : HasPron WordEntry := ⟨WordEntry.pronunciation⟩

/-- Embeds `calculate_distance` (main.py lines 23-34): apply the external
edit-distance primitive `ed.eval` to the two records' `pronunciation` values. -/
def calculate_distance {α β : Type} [HasPron α] [HasPron β]
    (ed_eval : String → String → Nat) (dict1 : α) (dict2 : β) : Nat :=
  ed_eval (HasPron.pron dict1) (HasPron.pron dict2)

/-- Embeds `sort_by_distance` (main.py lines 4-21): pair every word with its
distance to the target, sort the pairs by the distance component with a
stable sort (Python's `sorted` is stable; so is `List.mergeSort`), and
project the words back out. -/
def sort_by_distance (ed_eval : String → String → Nat)
    (target_word : Phrase) (wordlist : List WordEntry) : List WordEntry :=
  let distances := wordlist.map (fun word => (word, calculate_distance ed_eval target_word word))
  let sorted_distances := distances.mergeSort (fun x y => x.2 ≤ y.2)
  sorted_distances.map Prod.fst

/-- Embeds the token-record construction of `PhraseTokenizer.tokenize`
(main.py lines 62-73): positional grammatical fields with per-field
defaults when the record declares fewer fields.  `pos_info[0]` is read
unguarded in the source; a comma-split list is never empty, so the
fallback `""` at index 0 is unreachable. -/
def mkToken (word_surface : String) (pos_info : List String) : Token where
  surface_form := word_surface
  pos := pos_info.getD 0 ""
  pos_detail_1 := pos_info.getD 1 "*"
  pos_detail_2 := pos_info.getD 2 "*"
  pos_detail_3 := pos_info.getD 3 "*"
  conjugated_type := pos_info.getD 4 "*"
  conjugated_form := pos_info.getD 5 "*"
  basic_form := pos_info.getD 6 word_surface
  reading := pos_info.getD 7 ""
  pronunciation := pos_info.getD 8 ""

/-- Embeds one iteration of the `tokenize` loop (main.py lines 56-74):
lines without a tab are skipped (`none`); otherwise the part before the
tab is the surface form and the part after it is split on commas into
the grammatical fields. -/
def tokenize_line (line : String) : Option Token :=
  if strContains line "\t" then
    let parts := line.splitOn "\t"
    let word_surface := parts.getD 0 ""
    let pos_info := (parts.getD 1 "").splitOn ","
    some (mkToken word_surface pos_info)
  else
    none

/-- List of phrase-boundary part-of-speech tags (main.py line 88). -/
def phrase_break_pos_tags : List String :=
  ["名詞", "動詞", "接頭詞", "副詞", "感動詞", "形容詞", "形容動詞", "連体詞"]

/-- Comma-join of the three detail fields,
`','.join([pos_detail_1, pos_detail_2, pos_detail_3])` (main.py line 98). -/
def pos_detail_join (t : Token) : String :=
  String.intercalate "," [t.pos_detail_1, t.pos_detail_2, t.pos_detail_3]

/-- Break decision of `split_text_into_phrases` (main.py lines 101-110),
evaluated per token: membership of `pos` in the boundary set, narrowed by
the dependent-usage suppression rules exactly when
`consider_non_independent_nouns_as_breaks` is false. -/
def should_break (consider_non_independent_nouns_as_breaks : Bool)
    (previous_token : Option Token) (token : Token) : Bool :=
  let pos_info := token.pos
  let pos_detail := pos_detail_join token
  let sb0 := phrase_break_pos_tags.contains pos_info
  if consider_non_independent_nouns_as_breaks then
    sb0
  else
    let sb1 := sb0 && !(strContains pos_detail "接尾")
    let sb2 := sb1 && !(pos_info == "動詞" && strContains pos_detail "サ変接続")
    let sb3 := sb2 && !(strContains pos_detail "非自立")
    match previous_token with
    | none => sb3
    | some previous_token =>
      let previous_pos_info := previous_token.pos
      let previous_pos_detail := pos_detail_join previous_token
      let sb4 := sb3 && (previous_pos_info != "接頭詞")
      sb4 && !(strContains previous_pos_detail "サ変接続" && pos_info == "動詞"
                && token.conjugated_type == "サ変・スル")

/-- Loop of `split_text_into_phrases` (main.py lines 94-123) rendered as a
structural recursion over the remaining tokens.  State: the previous token
(`previous_token`, `none` at start) and the accumulator (`current_phrase`).
On a break the accumulator is emitted only when its surface is non-empty,
and is reset regardless; the token is then appended to the accumulator.
After the last token the accumulator is emitted when its surface is
non-empty. -/
def split_loop (consider : Bool) (previous_token : Option Token)
    (current_phrase : Phrase) : List Token → List Phrase
  | [] =>
    if current_phrase.surface == "" then [] else [current_phrase]
  | token :: rest =>
    if should_break consider previous_token token then
      (if current_phrase.surface == "" then [] else [current_phrase]) ++
        split_loop consider (some token)
          ⟨token.surface_form, token.pronunciation⟩ rest
    else
      split_loop consider (some token)
        ⟨current_phrase.surface ++ token.surface_form,
         current_phrase.pronunciation ++ token.pronunciation⟩ rest

/-- Embeds `split_text_into_phrases` (main.py lines 77-123) over an already
tokenized input (the text-to-tokens step is the external tokenizer). -/
def split_tokens_into_phrases (tokens : List Token) (consider : Bool) : List Phrase :=
  split_loop consider none ⟨"", ""⟩ tokens

/-- Embeds `split_text_into_phrases` on raw text, with the external
tokenizer abstracted as a function parameter. -/
def split_text_into_phrases (tokenize : String → List Token)
    (text : String) (consider : Bool) : List Phrase :=
  split_tokens_into_phrases (tokenize text) consider

/-- Embeds `get_pronunciation` (main.py lines 124-136): concatenate the
pronunciations of all tokens of the text that have a truthy (non-empty)
pronunciation. -/
def get_pronunciation (tokenize : String → List Token) (text : String) : String :=
  String.join (((tokenize text).map Token.pronunciation).filter (fun p => p != ""))

/-- Loop of `load_wordlist` (main.py lines 152-157): `id` counts up from the
given starting value, one entry per line. -/
def load_loop (tokenize : String → List Token) (id : Nat) :
    List String → List WordEntry
  | [] => []
  | line :: rest =>
    { id := id, surface := line, pronunciation := get_pronunciation tokenize line } ::
      load_loop tokenize (id + 1) rest

/-- Embeds `load_wordlist` (main.py lines 138-158) over the list of lines of
the file (file IO is external; `enumerate` starts at 0). -/
def load_wordlist (tokenize : String → List Token) (lines : List String) : List WordEntry :=
  load_loop tokenize 0 lines

/-- The spec's `match_closest`: first element of the ranked list, failing
with `EmptyCandidateSet` when there are no candidates — exactly what taking
`sorted_words[0]` (main.py line 179) does. -/
def match_closest (ed_eval : String → String → Nat)
    (query : Phrase) (candidates : List WordEntry) : Except MatchError WordEntry :=
  match sort_by_distance ed_eval query candidates with
  | [] => .error .emptyCandidateSet
  | closest :: _ => .ok closest

/-- Loop of `find_closest_words` (main.py lines 176-183): for each phrase in
order, rank the word list and take its first element; an empty word list
makes `sorted_words[0]` fail on the first phrase reached. -/
def find_closest_loop (ed_eval : String → String → Nat)
    (wordlist : List WordEntry) : List Phrase → Except MatchError (List ClosestWord)
  | [] => .ok []
  | phrase :: rest =>
    match sort_by_distance ed_eval phrase wordlist with
    | [] => .error .emptyCandidateSet
    | closest :: _ =>
      match find_closest_loop ed_eval wordlist rest with
      | .error e => .error e
      | .ok tail => .ok ({ closest_word := closest, original_phrase := phrase } :: tail)

/-- Embeds `find_closest_words` (main.py lines 161-185): segment the text
into phrases (with the source's default flag value, i.e. `consider = true`)
and pair each phrase with the closest word list entry. -/
def find_closest_words (ed_eval : String → String → Nat)
    (tokenize : String → List Token) (text : String)
    (wordlist : List WordEntry) : Except MatchError (List ClosestWord) :=
  find_closest_loop ed_eval wordlist (split_text_into_phrases tokenize text true)

/-! ### Helper lemmas -/

theorem str_join_nil : String.join ([] : List String) = "" := rfl

theorem str_join_cons (a : String) (l : List String) :
    String.join (a :: l) = a ++ String.join l := by
  apply String.ext
  simp [String.join_eq]

theorem sort_by_distance_perm (ed_eval : String → String → Nat)
    (q : Phrase) (ws : List WordEntry) :
    (sort_by_distance ed_eval q ws).Perm ws := by
  unfold sort_by_distance
  have h := (List.mergeSort_perm
      (ws.map (fun w => (w, calculate_distance ed_eval q w)))
      (fun x y => x.2 ≤ y.2)).map Prod.fst
  simpa [Function.comp_def] using h

/-! ### Claim theorems -/

/-- Spec-level rendering of the base break condition (spec §4.1, step 1):
the token's `pos` is a member of the boundary set. -/
def spec_base_break (token : Token) : Bool :=
  phrase_break_pos_tags.contains token.pos

/-- Spec-level rendering of the suppression rules (spec §4.1, step 2),
written from the spec's wording for comparison with `should_break`. -/
def spec_suppression_rules (previous_token : Option Token) (token : Token) : Bool :=
  !(strContains (pos_detail_join token) "接尾")
  && !(token.pos == "動詞" && strContains (pos_detail_join token) "サ変接続")
  && !(strContains (pos_detail_join token) "非自立")
  && (match previous_token with
      | none => true
      | some previous =>
        (previous.pos != "接頭詞")
        && !(strContains (pos_detail_join previous) "サ変接続"
              && token.pos == "動詞" && token.conjugated_type == "サ変・スル"))

/-- The spec's flag `suppress_dependent_breaks` is the negation of the
source's `consider_non_independent_nouns_as_breaks` parameter: suppression
applies exactly when the source flag is false. -/
def should_break_suppress (suppress_dependent_breaks : Bool)
    (previous_token : Option Token) (token : Token) : Bool :=
  should_break (!suppress_dependent_breaks) previous_token token

/-- C1: with `suppress_dependent_breaks = true` the break decision is the
base boundary-set condition narrowed (logical AND) by all suppression
rules; with `suppress_dependent_breaks = false` it is the base condition
alone. -/
theorem C1_break_condition_narrowing (previous_token : Option Token) (token : Token) :
    should_break_suppress true previous_token token
        = (spec_base_break token && spec_suppression_rules previous_token token)
    ∧ should_break_suppress false previous_token token = spec_base_break token := by
  constructor
  · cases previous_token <;>
      simp [should_break_suppress, should_break, spec_base_break,
        spec_suppression_rules, Bool.and_assoc]
  · rfl

/-- C4: on an empty candidate set, `match_closest` fails with
`EmptyCandidateSet` while ranking returns the empty sequence. -/
theorem C4_empty_candidates (ed_eval : String → String → Nat) (query : Phrase) :
    match_closest ed_eval query [] = .error .emptyCandidateSet
    ∧ sort_by_distance ed_eval query [] = [] := by
  constructor
  · simp [match_closest, sort_by_distance]
  · simp [sort_by_distance]

/-- C9: the ranked list returned by `sort_by_distance` is a permutation of
the input candidate list — no entry is dropped, duplicated or modified.
(In this pure embedding the input list itself is trivially unmodified,
as the source's `sorted` builds a new list.) -/
theorem C9_sort_is_permutation (ed_eval : String → String → Nat)
    (target_word : Phrase) (wordlist : List WordEntry) :
    (sort_by_distance ed_eval target_word wordlist).Perm wordlist :=
  sort_by_distance_perm ed_eval target_word wordlist

theorem str_append_eq_empty {a b : String} (h : a ++ b = "") : a = "" ∧ b = "" := by
  have hd := congrArg String.data h
  simp only [String.data_append] at hd
  rw [List.append_eq_nil] at hd
  exact ⟨String.ext (by simpa using hd.1), String.ext (by simpa using hd.2)⟩

theorem split_loop_surface_concat (consider : Bool) (tokens : List Token) :
    ∀ (previous_token : Option Token) (current_phrase : Phrase),
    String.join ((split_loop consider previous_token current_phrase tokens).map Phrase.surface)
      = current_phrase.surface ++ String.join (tokens.map Token.surface_form) := by
  induction tokens with
  | nil =>
    intro prev cur
    by_cases h : cur.surface = ""
    · simp [split_loop, h, str_join_nil]
    · simp [split_loop, h, str_join_cons, str_join_nil]
  | cons token rest ih =>
    intro prev cur
    unfold split_loop
    by_cases hb : should_break consider prev token = true
    · by_cases h : cur.surface = ""
      · simp [hb, h, ih, str_join_cons]
      · simp [hb, h, ih, str_join_cons, String.append_assoc]
    · simp [hb, ih, str_join_cons, String.append_assoc]

/-- C2: concatenating the surfaces of all emitted phrases, in emission
order, reproduces the concatenation of all input tokens' surface forms
exactly, for either value of the segmentation flag. -/
theorem C2_surface_preservation (consider : Bool) (tokens : List Token) :
    String.join ((split_tokens_into_phrases tokens consider).map Phrase.surface)
      = String.join (tokens.map Token.surface_form) := by
  unfold split_tokens_into_phrases
  rw [split_loop_surface_concat]
  simp

theorem split_loop_no_empty (consider : Bool) (tokens : List Token) :
    ∀ (prev : Option Token) (cur : Phrase) (p : Phrase),
      p ∈ split_loop consider prev cur tokens → p.surface ≠ "" := by
  induction tokens with
  | nil =>
    intro prev cur p hp
    unfold split_loop at hp
    by_cases h : cur.surface = ""
    · simp [h] at hp
    · simp [h] at hp
      rw [hp]
      exact h
  | cons token rest ih =>
    intro prev cur p hp
    unfold split_loop at hp
    by_cases hb : should_break consider prev token = true
    · by_cases h : cur.surface = ""
      · simp [hb, h] at hp
        exact ih _ _ _ hp
      · simp [hb, h] at hp
        rcases hp with hp | hp
        · rw [hp]; exact h
        · exact ih _ _ _ hp
    · simp [hb] at hp
      exact ih _ _ _ hp

/-- C5: segmentation never emits a phrase with an empty surface. -/
theorem C5_no_empty_phrase (consider : Bool) (tokens : List Token) (p : Phrase)
    (hp : p ∈ split_tokens_into_phrases tokens consider) : p.surface ≠ "" :=
  split_loop_no_empty consider tokens none ⟨"", ""⟩ p hp

/-- Sample noun token used to instantiate hypotheses at concrete inputs. -/
def sampleNoun : Token :=
  { surface_form := "海", pos := "名詞", pos_detail_1 := "一般", pos_detail_2 := "*",
    pos_detail_3 := "*", conjugated_type := "*", conjugated_form := "*",
    basic_form := "海", reading := "ウミ", pronunciation := "ウミ" }

theorem C5_no_empty_phrase_witness : (Phrase.mk "海" "ウミ").surface ≠ "" :=
  C5_no_empty_phrase true [sampleNoun] ⟨"海", "ウミ"⟩ (by decide)

/-- Token with an empty surface form but a non-empty pronunciation: the
accumulator holding it is never emitted, so its pronunciation is dropped. -/
def silentToken : Token :=
  { surface_form := "", pos := "記号", pos_detail_1 := "*", pos_detail_2 := "*",
    pos_detail_3 := "*", conjugated_type := "*", conjugated_form := "*",
    basic_form := "", reading := "ア", pronunciation := "ア" }

/-- C10 counterexample: for the single-token input `silentToken` (empty
surface form, pronunciation `ア`) the segmentation emits no phrase at all,
so the concatenated phrase pronunciations (`""`) differ from the
concatenated token pronunciations (`"ア"`). -/
theorem C10_counterexample_empty_surface :
    ¬ (String.join ((split_tokens_into_phrases [silentToken] true).map Phrase.pronunciation)
        = String.join ([silentToken].map Token.pronunciation)) := by
  decide

theorem split_loop_pron_concat (consider : Bool) (tokens : List Token) :
    ∀ (prev : Option Token) (cur : Phrase),
      (cur.surface = "" → cur.pronunciation = "") →
      (∀ t ∈ tokens, t.surface_form = "" → t.pronunciation = "") →
      String.join ((split_loop consider prev cur tokens).map Phrase.pronunciation)
        = cur.pronunciation ++ String.join (tokens.map Token.pronunciation) := by
  induction tokens with
  | nil =>
    intro prev cur hcur _
    by_cases h : cur.surface = ""
    · simp [split_loop, h, hcur h, str_join_nil]
    · simp [split_loop, h, str_join_cons, str_join_nil]
  | cons token rest ih =>
    intro prev cur hcur htoks
    have ht : token.surface_form = "" → token.pronunciation = "" :=
      htoks token (List.mem_cons_self _ _)
    have hrest : ∀ t ∈ rest, t.surface_form = "" → t.pronunciation = "" :=
      fun t ht' => htoks t (List.mem_cons_of_mem _ ht')
    unfold split_loop
    have ihtok := ih (some token) ⟨token.surface_form, token.pronunciation⟩ ht hrest
    by_cases hb : should_break consider prev token = true
    · by_cases h : cur.surface = ""
      · simp [hb, h, ihtok, str_join_cons, hcur h]
      · simp [hb, h, ihtok, str_join_cons, String.append_assoc]
    · have hinv : ((⟨cur.surface ++ token.surface_form,
          cur.pronunciation ++ token.pronunciation⟩ : Phrase).surface = "" →
          (⟨cur.surface ++ token.surface_form,
            cur.pronunciation ++ token.pronunciation⟩ : Phrase).pronunciation = "") := by
        intro hsf
        obtain ⟨h1, h2⟩ := str_append_eq_empty hsf
        show cur.pronunciation ++ token.pronunciation = ""
        rw [hcur h1, ht h2]
        rfl
      have ihapp := ih (some token) _ hinv hrest
      simp [hb, ihapp, str_join_cons, String.append_assoc]

/-- C10 amended: provided every input token with an empty surface form also
has an empty pronunciation (in particular whenever all tokens have
non-empty surfaces), concatenating the pronunciations of all emitted
phrases, in emission order, equals the concatenation of all input tokens'
pronunciations, for either value of the segmentation flag. -/
theorem C10_pronunciation_preservation_amended (consider : Bool) (tokens : List Token)
    (h : ∀ t ∈ tokens, t.surface_form = "" → t.pronunciation = "") :
    String.join ((split_tokens_into_phrases tokens consider).map Phrase.pronunciation)
      = String.join (tokens.map Token.pronunciation) := by
  unfold split_tokens_into_phrases
  rw [split_loop_pron_concat consider tokens none ⟨"", ""⟩ (fun _ => rfl) h]
  simp

theorem C10_pronunciation_preservation_amended_witness :
    String.join ((split_tokens_into_phrases [sampleNoun] true).map Phrase.pronunciation)
      = String.join ([sampleNoun].map Token.pronunciation) :=
  C10_pronunciation_preservation_amended true [sampleNoun] (by decide)

theorem str_join_filter_nonempty (l : List String) :
    String.join (l.filter (fun p => p != "")) = String.join l := by
  induction l with
  | nil => rfl
  | cons a l ih =>
    by_cases h : a = ""
    · simp [List.filter_cons, h, str_join_cons, ih]
    · simp [List.filter_cons, h, str_join_cons, ih]

theorem get_pronunciation_eq (tokenize : String → List Token) (text : String) :
    get_pronunciation tokenize text = String.join ((tokenize text).map Token.pronunciation) := by
  unfold get_pronunciation
  rw [str_join_filter_nonempty]

theorem load_loop_length (tokenize : String → List Token) (lines : List String) :
    ∀ n : Nat, (load_loop tokenize n lines).length = lines.length := by
  induction lines with
  | nil => intro n; rfl
  | cons line rest ih => intro n; simp [load_loop, ih]

theorem load_loop_getElem (tokenize : String → List Token) (lines : List String) :
    ∀ (n i : Nat),
    (load_loop tokenize n lines)[i]? = (lines[i]?).map (fun line =>
      { id := n + i, surface := line, pronunciation := get_pronunciation tokenize line }) := by
  induction lines with
  | nil => intro n i; simp [load_loop]
  | cons line rest ih =>
    intro n i
    cases i with
    | zero => simp [load_loop]
    | succ j =>
      have harith : n + 1 + j = n + (j + 1) := by omega
      simp only [load_loop, List.getElem?_cons_succ, ih (n + 1) j, harith]

/-- C6: loading the reference list produces one entry per line in input
order; the entry at position `i` has id `i`, surface the raw line, and
pronunciation the concatenation of the pronunciations of all tokens
obtained by tokenizing the whole line (no phrase segmentation). -/
theorem C6_load_wordlist_entries (tokenize : String → List Token)
    (lines : List String) (i : Nat) :
    (load_wordlist tokenize lines).length = lines.length
    ∧ (load_wordlist tokenize lines)[i]? = (lines[i]?).map (fun line =>
        { id := i, surface := line,
          pronunciation := String.join ((tokenize line).map Token.pronunciation) }) := by
  constructor
  · exact load_loop_length tokenize lines 0
  · rw [load_wordlist, load_loop_getElem tokenize lines 0 i]
    simp [get_pronunciation_eq]

theorem getD_take9 (fs : List String) (i : Nat) (d : String) (h : i < 9) :
    (fs.take 9).getD i d = fs.getD i d := by
  simp [List.getD_eq_getElem?_getD, List.getElem?_take_of_lt h]

theorem getD_of_length_le (fs : List String) (i : Nat) (d : String) (h : fs.length ≤ i) :
    fs.getD i d = d := by
  simp [List.getD_eq_getElem?_getD, List.getElem?_eq_none h]

/-- C8: the token constructor reads only the declared nine positional
fields (everything beyond index 8 is ignored), and every absent trailing
field takes its documented default — `pos_detail_1..3`, `conjugated_type`
and `conjugated_form` default to `"*"`, `basic_form` to the surface form,
`reading` and `pronunciation` to `""` — with no error in any case（the
constructor is total）. -/
theorem C8_token_field_defaults (word_surface : String) (pos_info : List String) :
    mkToken word_surface pos_info = mkToken word_surface (pos_info.take 9)
    ∧ (pos_info.length ≤ 1 → (mkToken word_surface pos_info).pos_detail_1 = "*")
    ∧ (pos_info.length ≤ 2 → (mkToken word_surface pos_info).pos_detail_2 = "*")
    ∧ (pos_info.length ≤ 3 → (mkToken word_surface pos_info).pos_detail_3 = "*")
    ∧ (pos_info.length ≤ 4 → (mkToken word_surface pos_info).conjugated_type = "*")
    ∧ (pos_info.length ≤ 5 → (mkToken word_surface pos_info).conjugated_form = "*")
    ∧ (pos_info.length ≤ 6 → (mkToken word_surface pos_info).basic_form = word_surface)
    ∧ (pos_info.length ≤ 7 → (mkToken word_surface pos_info).reading = "")
    ∧ (pos_info.length ≤ 8 → (mkToken word_surface pos_info).pronunciation = "") := by
  refine ⟨?_, ?_, ?_, ?_, ?_, ?_, ?_, ?_, ?_⟩
  · unfold mkToken
    congr 1
    all_goals exact (getD_take9 _ _ _ (by omega)).symm
  all_goals intro h
  all_goals simp only [mkToken]
  all_goals exact getD_of_length_le _ _ _ (by omega)

theorem C8_token_field_defaults_witness :
    (mkToken "走り" ["動詞", "自立"] = mkToken "走り" (["動詞", "自立"].take 9))
    ∧ (mkToken "走り" ["動詞", "自立"]).pos_detail_2 = "*"
    ∧ (mkToken "走り" ["動詞", "自立"]).pronunciation = "" :=
  ⟨(C8_token_field_defaults "走り" ["動詞", "自立"]).1,
   (C8_token_field_defaults "走り" ["動詞", "自立"]).2.2.1 (by decide),
   (C8_token_field_defaults "走り" ["動詞", "自立"]).2.2.2.2.2.2.2.2 (by decide)⟩

theorem sort_by_distance_sorted (ed_eval : String → String → Nat)
    (q : Phrase) (ws : List WordEntry) :
    (sort_by_distance ed_eval q ws).Pairwise
      (fun a b => calculate_distance ed_eval q a ≤ calculate_distance ed_eval q b) := by
  simp only [sort_by_distance]
  rw [List.pairwise_map]
  have trans : ∀ (a b c : WordEntry × Nat),
      (fun x y : WordEntry × Nat => decide (x.2 ≤ y.2)) a b →
      (fun x y : WordEntry × Nat => decide (x.2 ≤ y.2)) b c →
      (fun x y : WordEntry × Nat => decide (x.2 ≤ y.2)) a c := by
    intro a b c hab hbc
    simp only [decide_eq_true_eq] at *
    omega
  have total : ∀ (a b : WordEntry × Nat),
      ((fun x y : WordEntry × Nat => decide (x.2 ≤ y.2)) a b
        || (fun x y : WordEntry × Nat => decide (x.2 ≤ y.2)) b a) = true := by
    intro a b
    simp only [Bool.or_eq_true, decide_eq_true_eq]
    omega
  have h1 := List.sorted_mergeSort trans total
    (ws.map (fun word => (word, calculate_distance ed_eval q word)))
  have hmem : ∀ x ∈ (ws.map (fun word => (word, calculate_distance ed_eval q word))).mergeSort
      (fun x y : WordEntry × Nat => decide (x.2 ≤ y.2)),
      x.2 = calculate_distance ed_eval q x.1 := by
    intro x hx
    rw [List.mem_mergeSort] at hx
    obtain ⟨w, _, rfl⟩ := List.mem_map.mp hx
    rfl
  refine h1.imp_of_mem ?_
  intro a b ha hb hab
  rw [← hmem a ha, ← hmem b hb]
  simpa using hab

theorem sort_by_distance_stable (ed_eval : String → String → Nat)
    (q : Phrase) (ws : List WordEntry) (d : Nat) :
    (sort_by_distance ed_eval q ws).filter
        (fun w => calculate_distance ed_eval q w == d)
      = ws.filter (fun w => calculate_distance ed_eval q w == d) := by
  simp only [sort_by_distance]
  set l := ws.map (fun word => (word, calculate_distance ed_eval q word)) with hl
  set le := fun x y : WordEntry × Nat => decide (x.2 ≤ y.2) with hle
  set p := fun x : WordEntry × Nat => x.2 == d with hp
  have trans : ∀ (a b c : WordEntry × Nat), le a b → le b c → le a c := by
    intro a b c hab hbc
    simp only [hle, decide_eq_true_eq] at *
    omega
  have total : ∀ (a b : WordEntry × Nat), (le a b || le b a) = true := by
    intro a b
    simp only [hle, Bool.or_eq_true, decide_eq_true_eq]
    omega
  have hmem : ∀ x ∈ l.mergeSort le, x.2 = calculate_distance ed_eval q x.1 := by
    intro x hx
    rw [List.mem_mergeSort, hl] at hx
    obtain ⟨w, _, rfl⟩ := List.mem_map.mp hx
    rfl
  have hcpair : (l.filter p).Pairwise (fun a b => le a b = true) := by
    apply List.pairwise_of_forall_mem_list
    intro a ha b hb
    have ha2 : p a := (List.mem_filter.mp ha).2
    have hb2 : p b := (List.mem_filter.mp hb).2
    simp only [hp, beq_iff_eq] at ha2 hb2
    simp only [hle, decide_eq_true_eq, ha2, hb2]
    omega
  have hsub : List.Sublist (l.filter p) (l.mergeSort le) :=
    List.sublist_mergeSort trans total hcpair (List.filter_sublist l)
  have hfself : (l.filter p).filter p = l.filter p :=
    List.filter_eq_self.mpr (fun a ha => (List.mem_filter.mp ha).2)
  have hsub2 : List.Sublist (l.filter p) ((l.mergeSort le).filter p) := by
    have hflt := hsub.filter p
    rwa [hfself] at hflt
  have hlen : ((l.mergeSort le).filter p).length = (l.filter p).length :=
    ((List.mergeSort_perm l le).filter p).length_eq
  have heq : (l.mergeSort le).filter p = l.filter p :=
    (hsub2.eq_of_length hlen.symm).symm
  rw [List.filter_map]
  have hcong : (l.mergeSort le).filter
      ((fun w => calculate_distance ed_eval q w == d) ∘ Prod.fst)
      = (l.mergeSort le).filter p := by
    apply List.filter_congr
    intro x hx
    simp only [Function.comp_apply, hp]
    rw [hmem x hx]
  rw [hcong, heq, hl, List.filter_map]
  simp [Function.comp_def, hp]

/-- C3: ranking sorts the candidates in non-decreasing order of edit
distance to the query pronunciation, and candidates with equal distance
keep their original relative order (for every distance value `d`, the
equal-distance subsequence of the output equals that of the input). -/
theorem C3_rank_sorted_and_stable (ed_eval : String → String → Nat)
    (target_word : Phrase) (wordlist : List WordEntry) :
    (sort_by_distance ed_eval target_word wordlist).Pairwise
      (fun a b => calculate_distance ed_eval target_word a
        ≤ calculate_distance ed_eval target_word b)
    ∧ ∀ d : Nat,
      (sort_by_distance ed_eval target_word wordlist).filter
          (fun w => calculate_distance ed_eval target_word w == d)
        = wordlist.filter (fun w => calculate_distance ed_eval target_word w == d) :=
  ⟨sort_by_distance_sorted ed_eval target_word wordlist,
   fun d => sort_by_distance_stable ed_eval target_word wordlist d⟩

theorem sort_by_distance_ne_nil (ed_eval : String → String → Nat)
    (q : Phrase) (ws : List WordEntry) (h : ws ≠ []) :
    sort_by_distance ed_eval q ws ≠ [] := by
  intro hnil
  have hlen := (sort_by_distance_perm ed_eval q ws).length_eq
  rw [hnil] at hlen
  exact h (List.length_eq_zero.mp hlen.symm)

/-- Placeholder entry used only to express `headD` of a list known to be
non-empty. -/
def dummyEntry : WordEntry := ⟨0, "", ""⟩

theorem find_closest_loop_ok (ed_eval : String → String → Nat)
    (wordlist : List WordEntry) (h : wordlist ≠ []) :
    ∀ phrases : List Phrase,
    find_closest_loop ed_eval wordlist phrases
      = .ok (phrases.map (fun phrase =>
          { closest_word := (sort_by_distance ed_eval phrase wordlist).headD dummyEntry,
            original_phrase := phrase })) := by
  intro phrases
  induction phrases with
  | nil => rfl
  | cons phrase rest ih =>
    have hne := sort_by_distance_ne_nil ed_eval phrase wordlist h
    cases hs : sort_by_distance ed_eval phrase wordlist with
    | nil => exact absurd hs hne
    | cons c cs =>
      simp only [find_closest_loop, hs, ih, List.map_cons]
      simp [List.headD]

/-- C7: with a non-empty reference list, the end-to-end entry point
segments the text into phrases and pairs each phrase, in phrase order and
independently of the others, with exactly the entry `match_closest`
returns for it. -/
theorem C7_find_closest_words_composition (ed_eval : String → String → Nat)
    (tokenize : String → List Token) (text : String)
    (wordlist : List WordEntry) (h : wordlist ≠ []) :
    find_closest_words ed_eval tokenize text wordlist
      = .ok ((split_text_into_phrases tokenize text true).map (fun phrase =>
          { closest_word := (sort_by_distance ed_eval phrase wordlist).headD dummyEntry,
            original_phrase := phrase }))
    ∧ ∀ phrase : Phrase,
        match_closest ed_eval phrase wordlist
          = .ok ((sort_by_distance ed_eval phrase wordlist).headD dummyEntry) := by
  constructor
  · unfold find_closest_words
    exact find_closest_loop_ok ed_eval wordlist h _
  · intro phrase
    have hne := sort_by_distance_ne_nil ed_eval phrase wordlist h
    unfold match_closest
    cases hs : sort_by_distance ed_eval phrase wordlist with
    | nil => exact absurd hs hne
    | cons c cs => simp [List.headD]

/-- Concrete tokenizer used only to instantiate hypotheses of theorems. -/
def witnessTokenizer : String → List Token := fun _ => [sampleNoun]

/-- Concrete word list used only to instantiate hypotheses of theorems. -/
def witnessWordlist : List WordEntry := [⟨0, "a", "アア"⟩, ⟨1, "b", "ア"⟩]

/-- Concrete stand-in for the external edit-distance primitive, used only
to instantiate hypotheses of theorems. -/
def witnessEd : String → String → Nat := fun a b => a.length + b.length

theorem C7_find_closest_words_composition_witness :
    find_closest_words witnessEd witnessTokenizer "海" witnessWordlist
      = .ok ((split_text_into_phrases witnessTokenizer "海" true).map (fun phrase =>
          { closest_word := (sort_by_distance witnessEd phrase witnessWordlist).headD dummyEntry,
            original_phrase := phrase })) :=
  (C7_find_closest_words_composition witnessEd witnessTokenizer "海" witnessWordlist
    (by decide)).1
